import Mathlib

/-!
Verification of the Checkpoint Store & Filter component (the `WorkflowCheckpointer`
of `llama_index.core.workflow.checkpointer`, demonstrated in
`docs/docs/examples/workflow/checkpointing_workflows.ipynb`).

The checkpointer implementation itself is not among the provided source files
(only the notebook that calls it is), so every definition of the component below
is modelled from the specification's own description of the mechanism, and the
external Workflow Engine collaborator is modelled from the engine contract the
specification states (section 6).
-/

/-- Modelled from the spec: an event consumed or produced by a workflow step.
Per the spec's design notes, the dynamic event class used for filtering is
modelled as an explicit type tag carried alongside the event value. -/
structure Event where
  eventType : String
  payload : String
deriving DecidableEq

/-- Modelled from the spec: the Workflow Engine's mutable run context, opaque to
the checkpointer; modelled as an opaque serialized string payload, per the
spec's design notes. -/
abbrev Ctx := String

/-- Modelled from the spec: the engine's fresh run context at the start of a
plain run. -/
def initialCtx : Ctx := ""

/-- Modelled from the spec: a named step of the external Workflow Engine, which
consumes one input event and produces one output event while mutating the run
context. -/
structure Step where
  name : String
  exec : Ctx → Event → Ctx × Event

/-- Modelled from the spec: a workflow instance. A fresh instance of the same
workflow class shares the class's step list (in engine order) but carries its
own instance identity. -/
structure Workflow where
  instanceId : Nat
  steps : List Step

/-- Modelled from the spec (engine contract, section 6): execution of a list of
steps in engine order from a context and an input event, where each step
consumes the previous step's output event. Returns the list of step completions
(step name, input event, output event, context snapshot after the step) that
the attached observer callback receives, together with the final context and
the final result event delivered through the run handle. -/
def engineRun : List Step → Ctx → Event → List (String × Event × Event × Ctx) × (Ctx × Event)
  | [], ctx, ev => ([], (ctx, ev))
  | s :: rest, ctx, ev =>
    let out := s.exec ctx ev
    let next := engineRun rest out.1 out.2
    ((s.name, ev, out.2, out.1) :: next.1, next.2)

/-- Modelled from the spec: the engine's resume entry point skips every step up
to and including the named last completed step; execution continues with the
steps after it in engine order. -/
def stepsAfter : List Step → String → List Step
  | [], _ => []
  | s :: rest, n => if s.name = n then rest else stepsAfter rest n

/-- Modelled from the spec: an immutable checkpoint record, holding a unique id,
the name of the last completed step, that step's input and output events, and a
serialized snapshot of the run context. -/
structure Checkpoint where
  id_ : Nat
  last_completed_step : String
  input_event : Event
  output_event : Event
  ctx_state : String
deriving DecidableEq

/-- Modelled from the spec: the checkpointer's observer callback applied to a
run's step completions. For each completion whose step name is in the
enabled-steps set, the context snapshot is serialized and a checkpoint with a
fresh id is appended; a serialization failure is non-fatal — that completion is
skipped and processing of later completions continues. -/
def mkCheckpoints (enabled : List String) (ser : Ctx → Option String) :
    Nat → List (String × Event × Event × Ctx) → List Checkpoint
  | _, [] => []
  | n, (stepName, inEv, outEv, ctx) :: rest =>
    if stepName ∈ enabled then
      match ser ctx with
      | some cs =>
        { id_ := n, last_completed_step := stepName, input_event := inEv,
          output_event := outEv, ctx_state := cs } :: mkCheckpoints enabled ser (n + 1) rest
      | none => mkCheckpoints enabled ser n rest
    else mkCheckpoints enabled ser n rest

/-- Modelled from the spec: the state of a WorkflowCheckpointer — the attached
workflow, the enabled-steps set, the store mapping run_id to its ordered
checkpoint list (kept in run-insertion order), and counters supplying fresh run
and checkpoint identifiers. -/
structure WorkflowCheckpointer where
  workflow : Workflow
  enabled_checkpoints : List String
  checkpoints : List (Nat × List Checkpoint)
  nextRunId : Nat
  nextCkptId : Nat

/-- Modelled from the spec: construction of a WorkflowCheckpointer attached to a
workflow. The enabled-steps set defaults to all of the workflow's step names
except the terminal "_done" step, and the store starts empty. -/
def WorkflowCheckpointer.init (wf : Workflow) : WorkflowCheckpointer :=
  { workflow := wf
    enabled_checkpoints := (wf.steps.map Step.name).filter (fun n => n ≠ "_done")
    checkpoints := []
    nextRunId := 0
    nextCkptId := 0 }

/-- Modelled from the spec: `run(inputs)` generates a fresh run_id, delegates to
the engine, stores one checkpoint per enabled step completion (in completion
order) under the new run_id, and returns the engine's result unmodified. The
serializer is a parameter so that serialization failure can be analysed. -/
def WorkflowCheckpointer.run (st : WorkflowCheckpointer) (ser : Ctx → Option String)
    (startEv : Event) : WorkflowCheckpointer × (Ctx × Event) :=
  let res := engineRun st.workflow.steps initialCtx startEv
  let cps := mkCheckpoints st.enabled_checkpoints ser st.nextCkptId res.1
  ({ st with
      checkpoints := st.checkpoints ++ [(st.nextRunId, cps)]
      nextRunId := st.nextRunId + 1
      nextCkptId := st.nextCkptId + cps.length }, res.2)

/-- Modelled from the spec: `run_from(checkpoint)` starts a new run with a new
run_id, restores the engine context from the checkpoint's context snapshot, and
presents the checkpoint's output event as the next input event, so execution
continues from the step immediately following `last_completed_step`. If the
current workflow does not recognize the checkpoint's step, it fails with a
configuration-mismatch error (modelled as `none`). -/
def WorkflowCheckpointer.run_from (st : WorkflowCheckpointer) (ser : Ctx → Option String)
    (cp : Checkpoint) : Option (WorkflowCheckpointer × (Ctx × Event)) :=
  if cp.last_completed_step ∈ st.workflow.steps.map Step.name then
    let res := engineRun (stepsAfter st.workflow.steps cp.last_completed_step)
      cp.ctx_state cp.output_event
    let cps := mkCheckpoints st.enabled_checkpoints ser st.nextCkptId res.1
    some ({ st with
        checkpoints := st.checkpoints ++ [(st.nextRunId, cps)]
        nextRunId := st.nextRunId + 1
        nextCkptId := st.nextCkptId + cps.length }, res.2)
  else none

/-- Modelled from the spec: all stored checkpoints across all runs, in
run-insertion order then per-run list order. -/
def WorkflowCheckpointer.allCheckpoints (st : WorkflowCheckpointer) : List Checkpoint :=
  (st.checkpoints.map Prod.snd).flatten

/-- Modelled from the spec: the conjunction of the supplied filter predicates —
exact string equality on `last_completed_step` and exact equality on the
input/output events' type tags; omitted parameters impose no constraint. -/
def checkpointMatches (cp : Checkpoint) (lastStep inTag outTag : Option String) : Bool :=
  (match lastStep with | none => true | some s => cp.last_completed_step == s) &&
  (match inTag with | none => true | some t => cp.input_event.eventType == t) &&
  (match outTag with | none => true | some t => cp.output_event.eventType == t)

/-- Modelled from the spec: `filter_checkpoints` scans all checkpoints across
all runs in the global order and returns those satisfying all supplied
predicates; a pure read returning a new sequence. -/
def WorkflowCheckpointer.filter_checkpoints (st : WorkflowCheckpointer)
    (lastStep inTag outTag : Option String) : List Checkpoint :=
  st.allCheckpoints.filter (fun cp => checkpointMatches cp lastStep inTag outTag)

/-- Modelled from the spec: `disable_checkpoint(step)` removes the step name
from the enabled-steps set; an idempotent set operation that never fails. -/
def WorkflowCheckpointer.disable_checkpoint (st : WorkflowCheckpointer) (s : String) :
    WorkflowCheckpointer :=
  { st with enabled_checkpoints := st.enabled_checkpoints.filter (fun n => n ≠ s) }

/-- Modelled from the spec: `enable_checkpoint(step)` adds the step name to the
enabled-steps set; an idempotent set operation that never fails. -/
def WorkflowCheckpointer.enable_checkpoint (st : WorkflowCheckpointer) (s : String) :
    WorkflowCheckpointer :=
  { st with enabled_checkpoints :=
      if s ∈ st.enabled_checkpoints then st.enabled_checkpoints
      else st.enabled_checkpoints ++ [s] }

/-- Modelled from the spec: reassignment of the checkpointer's `workflow`
attribute to another workflow instance, as done in the notebook before
resuming from a checkpoint with a fresh instance. -/
def WorkflowCheckpointer.set_workflow (st : WorkflowCheckpointer) (wf : Workflow) :
    WorkflowCheckpointer :=
  { st with workflow := wf }

/-- Modelled from the spec: the checkpoint list stored for the most recently
launched run (the store keeps runs in insertion order, so this is the last
entry's list). -/
def lastRunCheckpoints (st : WorkflowCheckpointer) : List Checkpoint :=
  match st.checkpoints.getLast? with
  | none => []
  | some p => p.2

/-- Modelled from the spec: the two-step example workflow of the notebook —
`generate_joke` consumes a StartEvent and produces a JokeEvent, `critique_joke`
consumes the JokeEvent and produces a StopEvent, followed by the terminal
"_done" sink step. The step bodies stand in for the LLM calls, which are
opaque to the checkpointer. -/
def generate_joke : Step :=
  { name := "generate_joke"
    exec := fun ctx ev =>
      (ctx ++ "|generate_joke", { eventType := "JokeEvent", payload := "joke:" ++ ev.payload }) }

/-- Modelled from the spec: the second step of the example workflow. -/
def critique_joke : Step :=
  { name := "critique_joke"
    exec := fun ctx ev =>
      (ctx ++ "|critique_joke", { eventType := "StopEvent", payload := "critique:" ++ ev.payload }) }

/-- Modelled from the spec: the terminal sink step of a workflow. -/
def doneStep : Step :=
  { name := "_done", exec := fun ctx ev => (ctx, ev) }

/-- Modelled from the spec: the example JokeFlow workflow instance. -/
def jokeFlow : Workflow :=
  { instanceId := 0, steps := [generate_joke, critique_joke, doneStep] }

/-- Modelled from the spec: a second, fresh instance of the same workflow
class — same step list, distinct instance identity. -/
def jokeFlow2 : Workflow :=
  { instanceId := 1, steps := [generate_joke, critique_joke, doneStep] }

/-- Modelled from the spec: the start event used by the notebook runs. -/
def startEvent : Event := { eventType := "StartEvent", payload := "chemistry" }

/-- Modelled from the spec: one observable operation of a WorkflowCheckpointer;
used to reason about every sequence of operations. -/
inductive CkptrStep : WorkflowCheckpointer → WorkflowCheckpointer → Prop where
  | run : ∀ (st : WorkflowCheckpointer) (ser : Ctx → Option String) (ev : Event),
      CkptrStep st (st.run ser ev).1
  | run_from : ∀ (st : WorkflowCheckpointer) (ser : Ctx → Option String) (cp : Checkpoint)
      (st2 : WorkflowCheckpointer) (res : Ctx × Event),
      st.run_from ser cp = some (st2, res) → CkptrStep st st2
  | enable : ∀ (st : WorkflowCheckpointer) (s : String), CkptrStep st (st.enable_checkpoint s)
  | disable : ∀ (st : WorkflowCheckpointer) (s : String), CkptrStep st (st.disable_checkpoint s)
  | set_workflow : ∀ (st : WorkflowCheckpointer) (wf : Workflow),
      CkptrStep st (st.set_workflow wf)

/-- Modelled from the spec: a checkpointer state reachable from construction by
a sequence of operations. -/
def Reachable (st : WorkflowCheckpointer) : Prop :=
  ∃ wf, Relation.ReflTransGen CkptrStep (WorkflowCheckpointer.init wf) st

/-- Modelled from the spec: the run-identifier invariant — run_ids in the store
are pairwise distinct and all lie below the fresh-id counter. -/
def RunIdsOk (st : WorkflowCheckpointer) : Prop :=
  (st.checkpoints.map Prod.fst).Nodup ∧ ∀ k ∈ st.checkpoints.map Prod.fst, k < st.nextRunId

/-- Modelled from the spec: the checkpoint stored after the `generate_joke`
step of the example run (used as the concrete resume point). -/
def sampleCkpt : Checkpoint :=
  { id_ := 0, last_completed_step := "generate_joke",
    input_event := startEvent,
    output_event := { eventType := "JokeEvent", payload := "joke:chemistry" },
    ctx_state := "|generate_joke" }

/-- Modelled from the spec: the checkpointer state after one complete example
run launched from construction. -/
def demoState1 : WorkflowCheckpointer :=
  ((WorkflowCheckpointer.init jokeFlow).run Option.some startEvent).1

/-- Modelled from the spec: the checkpointer state after a second complete
example run. -/
def demoState2 : WorkflowCheckpointer :=
  (demoState1.run Option.some startEvent).1

/-! ### Basic lemmas about the engine and observer models -/

theorem engineRun_names (steps : List Step) (ctx : Ctx) (ev : Event) :
    (engineRun steps ctx ev).1.map (fun t => t.1) = steps.map Step.name := by
  induction steps generalizing ctx ev with
  | nil => rfl
  | cons s rest ih => simp [engineRun, ih]

theorem mkCheckpoints_map_step (enabled : List String) (n : Nat)
    (tr : List (String × Event × Event × Ctx)) :
    (mkCheckpoints enabled Option.some n tr).map Checkpoint.last_completed_step
      = (tr.map (fun t => t.1)).filter (fun x => x ∈ enabled) := by
  induction tr generalizing n with
  | nil => rfl
  | cons t rest ih =>
    obtain ⟨nm, inEv, outEv, ctx⟩ := t
    by_cases h : nm ∈ enabled
    · simp [mkCheckpoints, h, ih]
    · simp [mkCheckpoints, h, ih]

theorem mkCheckpoints_mem_enabled (enabled : List String) (ser : Ctx → Option String)
    (n : Nat) (tr : List (String × Event × Event × Ctx)) (c : Checkpoint)
    (hc : c ∈ mkCheckpoints enabled ser n tr) : c.last_completed_step ∈ enabled := by
  induction tr generalizing n with
  | nil => simp [mkCheckpoints] at hc
  | cons t rest ih =>
    obtain ⟨nm, inEv, outEv, ctx⟩ := t
    simp only [mkCheckpoints] at hc
    split at hc
    · split at hc
      · rcases List.mem_cons.mp hc with h1 | h1
        · subst h1; assumption
        · exact ih _ h1
      · exact ih _ hc
    · exact ih _ hc

theorem stepsAfter_eq (pre post : List Step) (s : Step)
    (hpre : s.name ∉ pre.map Step.name) :
    stepsAfter (pre ++ s :: post) s.name = post := by
  induction pre with
  | nil => simp [stepsAfter]
  | cons p rest ih =>
    simp only [List.map_cons, List.mem_cons, not_or] at hpre
    rw [List.cons_append]
    simp only [stepsAfter]
    rw [if_neg (fun h => hpre.1 h.symm)]
    exact ih hpre.2

theorem filter_disable_count (names e : List String) (s : String) (hs : s ∈ e) :
    (names.filter (fun x => x ∈ e.filter (fun n => n ≠ s))).length + names.count s
      = (names.filter (fun x => x ∈ e)).length := by
  induction names with
  | nil => simp
  | cons x xs ih =>
    have hcnt : (x :: xs).count s = xs.count s + (if x = s then 1 else 0) := by
      rcases eq_or_ne x s with h | h <;> simp [List.count_cons, h]
    rcases eq_or_ne x s with hx | hx
    · have h1 : ¬ x ∈ e.filter (fun n => n ≠ s) := by
        simp [List.mem_filter, hx]
      have h2 : x ∈ e := hx ▸ hs
      rw [List.filter_cons, List.filter_cons, hcnt, if_pos hx,
        if_neg (by simpa using h1), if_pos (by simpa using h2), List.length_cons]
      omega
    · have h1 : (x ∈ e.filter (fun n => n ≠ s)) ↔ x ∈ e := by
        simp [List.mem_filter, hx]
      rcases Decidable.em (x ∈ e) with h2 | h2
      · rw [List.filter_cons, List.filter_cons, hcnt, if_neg hx,
          if_pos (by simpa using h1.mpr h2), if_pos (by simpa using h2),
          List.length_cons, List.length_cons]
        omega
      · rw [List.filter_cons, List.filter_cons, hcnt, if_neg hx,
          if_neg (by simpa using fun hh => h2 (h1.mp hh)), if_neg (by simpa using h2)]
        omega

theorem lastRunCheckpoints_run (st : WorkflowCheckpointer) (ser : Ctx → Option String)
    (ev : Event) :
    lastRunCheckpoints ((st.run ser ev).1)
      = mkCheckpoints st.enabled_checkpoints ser st.nextCkptId
          (engineRun st.workflow.steps initialCtx ev).1 := by
  simp [WorkflowCheckpointer.run, lastRunCheckpoints, List.getLast?_concat]

theorem filter_mem_length_eq (names e : List String) (hn : names.Nodup) (he : e.Nodup)
    (hsub : ∀ x ∈ e, x ∈ names) :
    (names.filter (fun x => x ∈ e)).length = e.length := by
  have h1 : (names.filter (fun x => decide (x ∈ e))).Nodup := hn.filter _
  rw [← List.toFinset_card_of_nodup h1, ← List.toFinset_card_of_nodup he]
  congr 1
  ext a
  simp only [List.mem_toFinset, List.mem_filter, decide_eq_true_eq]
  exact ⟨fun h => h.2, fun h => ⟨hsub a h, h⟩⟩

/-! ### C4: filter_checkpoints with no arguments -/

/-- C4: `filter_checkpoints` called with no filter arguments returns every
checkpoint ever stored, in run-insertion order then per-run position, and its
length equals the sum of the per-run list lengths. The operation is a pure
function of the store (the model's read operations take the state and return a
fresh list without modifying it). -/
theorem filter_checkpoints_no_args (st : WorkflowCheckpointer) :
    st.filter_checkpoints none none none = st.allCheckpoints
    ∧ (st.filter_checkpoints none none none).length
        = (st.checkpoints.map (fun p => p.2.length)).sum := by
  have h : st.filter_checkpoints none none none = st.allCheckpoints := by
    simp [WorkflowCheckpointer.filter_checkpoints, checkpointMatches]
  refine ⟨h, ?_⟩
  rw [h]
  simp [WorkflowCheckpointer.allCheckpoints, List.length_flatten, List.map_map]
  rfl

/-! ### C3: filter_checkpoints is the conjunction of exact-equality filters -/

/-- C3: membership in the result of `filter_checkpoints` is exactly the
conjunction of the supplied predicates — exact string equality on
`last_completed_step` and on the input/output event type tags (omitted
parameters impose no constraint) — and a type tag matched by no stored
checkpoint yields an empty result rather than an error (the function is total).
Combining filters therefore cuts the result down to the intersection, never
the union. -/
theorem filter_checkpoints_and_semantics (st : WorkflowCheckpointer)
    (lastStep inTag outTag : Option String) (t : String) (cp : Checkpoint) :
    (cp ∈ st.filter_checkpoints lastStep inTag outTag ↔
       cp ∈ st.allCheckpoints
       ∧ (∀ x, lastStep = some x → cp.last_completed_step = x)
       ∧ (∀ x, inTag = some x → cp.input_event.eventType = x)
       ∧ (∀ x, outTag = some x → cp.output_event.eventType = x))
    ∧ ((∀ c ∈ st.allCheckpoints, c.input_event.eventType ≠ t) →
        st.filter_checkpoints lastStep (some t) outTag = []) := by
  constructor
  · cases lastStep <;> cases inTag <;> cases outTag <;>
      simp [WorkflowCheckpointer.filter_checkpoints, List.mem_filter, checkpointMatches,
        and_assoc]
  · intro h
    simp only [WorkflowCheckpointer.filter_checkpoints]
    rw [List.filter_eq_nil_iff]
    intro c hc
    simp [checkpointMatches, h c hc]

/-! ### C8: default enabled-steps set -/

/-- C8: at construction the enabled-steps set is all of the attached workflow's
step names except the terminal "_done" sink step — for the two-step example
workflow exactly {generate_joke, critique_joke} — and it is left unchanged by
run, run_from and workflow reassignment, so it changes only through the
explicit enable/disable operations. -/
theorem enabled_checkpoints_default (wf wf2 : Workflow) (st : WorkflowCheckpointer)
    (ser : Ctx → Option String) (ev : Event) (cp : Checkpoint) :
    ((WorkflowCheckpointer.init jokeFlow).enabled_checkpoints
        = ["generate_joke", "critique_joke"])
    ∧ ((WorkflowCheckpointer.init wf).enabled_checkpoints
        = (wf.steps.map Step.name).filter (fun n => n ≠ "_done"))
    ∧ ((st.run ser ev).1.enabled_checkpoints = st.enabled_checkpoints)
    ∧ ((st.run_from ser cp).map (fun p => p.1.enabled_checkpoints)
        = (st.run_from ser cp).map (fun _ => st.enabled_checkpoints))
    ∧ ((st.set_workflow wf2).enabled_checkpoints = st.enabled_checkpoints) := by
  refine ⟨by decide, rfl, rfl, ?_, rfl⟩
  simp only [WorkflowCheckpointer.run_from]
  split <;> rfl

/-! ### C9: enable/disable are idempotent silent set toggles -/

/-- C9: `enable_checkpoint` and `disable_checkpoint` are idempotent
set-membership toggles for every step name (including names matching no step
of the workflow): applying either twice equals applying it once, disabling an
absent name and enabling a present name are accepted silently as no-ops (the
operations are total, so they never raise), and a change takes effect for
subsequent step completions — after disabling `s`, a freshly launched run
stores no checkpoint for `s`. -/
theorem enable_disable_toggles :
    (∀ (st : WorkflowCheckpointer) (s : String),
        (st.disable_checkpoint s).disable_checkpoint s = st.disable_checkpoint s)
    ∧ (∀ (st : WorkflowCheckpointer) (s : String),
        (st.enable_checkpoint s).enable_checkpoint s = st.enable_checkpoint s)
    ∧ (∀ (st : WorkflowCheckpointer) (s : String),
        s ∉ st.enabled_checkpoints → st.disable_checkpoint s = st)
    ∧ (∀ (st : WorkflowCheckpointer) (s : String),
        s ∈ st.enabled_checkpoints → st.enable_checkpoint s = st)
    ∧ (∀ (st : WorkflowCheckpointer) (s : String),
        s ∈ (st.enable_checkpoint s).enabled_checkpoints
        ∧ s ∉ (st.disable_checkpoint s).enabled_checkpoints)
    ∧ (∀ (st : WorkflowCheckpointer) (s : String) (ser : Ctx → Option String) (ev : Event)
        (c : Checkpoint), c ∈ lastRunCheckpoints (((st.disable_checkpoint s).run ser ev).1) →
        c.last_completed_step ≠ s) := by
  refine ⟨?_, ?_, ?_, ?_, ?_, ?_⟩
  · intro st s
    simp only [WorkflowCheckpointer.disable_checkpoint]
    rw [List.filter_filter]
    simp
  · intro st s
    simp only [WorkflowCheckpointer.enable_checkpoint]
    by_cases h : s ∈ st.enabled_checkpoints
    · simp [h]
    · simp [h]
  · intro st s h
    have : st.enabled_checkpoints.filter (fun n => n ≠ s) = st.enabled_checkpoints :=
      List.filter_eq_self.mpr (fun a ha => by
        simp only [decide_eq_true_eq]
        exact fun has => h (has ▸ ha))
    simp only [WorkflowCheckpointer.disable_checkpoint, this]
  · intro st s h
    simp [WorkflowCheckpointer.enable_checkpoint, h]
  · intro st s
    constructor
    · simp only [WorkflowCheckpointer.enable_checkpoint]
      by_cases h : s ∈ st.enabled_checkpoints <;> simp [h]
    · simp [WorkflowCheckpointer.disable_checkpoint, List.mem_filter]
  · intro st s ser ev c hc
    rw [lastRunCheckpoints_run] at hc
    have h := mkCheckpoints_mem_enabled _ _ _ _ _ hc
    simp only [WorkflowCheckpointer.disable_checkpoint, List.mem_filter,
      decide_eq_true_eq] at h
    exact h.2

/-- Witness for C9: at the example checkpointer, disabling a name that is not
in the enabled set is a silent no-op, and enabling an already-enabled step is
a silent no-op. -/
theorem enable_disable_toggles_witness :
    (WorkflowCheckpointer.init jokeFlow).disable_checkpoint "no_such_step"
        = WorkflowCheckpointer.init jokeFlow
    ∧ (WorkflowCheckpointer.init jokeFlow).enable_checkpoint "generate_joke"
        = WorkflowCheckpointer.init jokeFlow :=
  ⟨enable_disable_toggles.2.2.1 (WorkflowCheckpointer.init jokeFlow) "no_such_step"
      (by decide),
    enable_disable_toggles.2.2.2.1 (WorkflowCheckpointer.init jokeFlow) "generate_joke"
      (by decide)⟩

/-! ### C7: checkpoint failure never fails the run -/

/-- C7: a failure while serializing or storing a checkpoint is non-fatal: for
every serializer (including failing ones), `run` returns exactly the engine's
own result, the result is identical to the one obtained with any other
serializer, the same holds for `run_from`, and a failed serialization skips
only that completion while processing of the remaining completions
continues. -/
theorem checkpoint_failure_nonfatal (st : WorkflowCheckpointer)
    (ser ser2 : Ctx → Option String) (ev : Event) (cp : Checkpoint) :
    ((st.run ser ev).2 = (engineRun st.workflow.steps initialCtx ev).2)
    ∧ ((st.run ser ev).2 = (st.run ser2 ev).2)
    ∧ ((st.run_from ser cp).map Prod.snd = (st.run_from ser2 cp).map Prod.snd)
    ∧ (∀ (enabled : List String) (n : Nat) (nm : String) (inEv outEv : Event) (ctx : Ctx)
        (rest : List (String × Event × Event × Ctx)), ser ctx = none →
        mkCheckpoints enabled ser n ((nm, inEv, outEv, ctx) :: rest)
          = mkCheckpoints enabled ser n rest) := by
  refine ⟨rfl, rfl, ?_, ?_⟩
  · simp only [WorkflowCheckpointer.run_from]
    split <;> rfl
  · intro enabled n nm inEv outEv ctx rest hser
    simp only [mkCheckpoints, hser]
    split <;> rfl

/-- Witness for C7: with a serializer that always fails, a completion is
skipped but the remaining completions are still processed. -/
theorem checkpoint_failure_nonfatal_witness :
    mkCheckpoints ["generate_joke"] (fun _ => none) 0
        [("generate_joke", startEvent, startEvent, "c1")]
      = mkCheckpoints ["generate_joke"] (fun _ => none) 0 [] :=
  (checkpoint_failure_nonfatal (WorkflowCheckpointer.init jokeFlow) (fun _ => none)
      Option.some startEvent
      { id_ := 0, last_completed_step := "generate_joke", input_event := startEvent,
        output_event := startEvent, ctx_state := "c" }).2.2.2
    ["generate_joke"] 0 "generate_joke" startEvent startEvent "c1" [] rfl

/-! ### C5: run identifiers are unique -/

theorem runIdsOk_append (st : WorkflowCheckpointer) (cps : List Checkpoint)
    (hok : RunIdsOk st) :
    ((st.checkpoints ++ [(st.nextRunId, cps)]).map Prod.fst).Nodup
    ∧ ∀ k ∈ (st.checkpoints ++ [(st.nextRunId, cps)]).map Prod.fst, k < st.nextRunId + 1 := by
  obtain ⟨hnd, hlt⟩ := hok
  constructor
  · rw [List.map_append]
    refine List.Nodup.append hnd (by simp) ?_
    intro a ha hb
    simp only [List.map_cons, List.map_nil, List.mem_singleton] at hb
    subst hb
    exact absurd (hlt _ ha) (lt_irrefl _)
  · intro k hk
    rw [List.map_append, List.mem_append] at hk
    rcases hk with hk | hk
    · exact Nat.lt_succ_of_lt (hlt _ hk)
    · simp only [List.map_cons, List.map_nil, List.mem_singleton] at hk
      subst hk
      exact Nat.lt_succ_self _

theorem runIdsOk_step (st st2 : WorkflowCheckpointer) (h : CkptrStep st st2)
    (hok : RunIdsOk st) : RunIdsOk st2 := by
  cases h with
  | run ser ev =>
    exact runIdsOk_append st _ hok
  | run_from ser cp st2 res heq =>
    simp only [WorkflowCheckpointer.run_from] at heq
    split at heq
    · injection heq with h1
      cases h1
      exact runIdsOk_append st _ hok
    · cases heq
  | enable s => exact hok
  | disable s => exact hok
  | set_workflow wf => exact hok

theorem runIdsOk_reachable (st : WorkflowCheckpointer) (h : Reachable st) : RunIdsOk st := by
  obtain ⟨wf, hchain⟩ := h
  induction hchain with
  | refl => constructor <;> simp [WorkflowCheckpointer.init]
  | tail h1 h2 ih => exact runIdsOk_step _ _ h2 ih

/-- C5: in every reachable checkpointer state, the run_ids of the stored runs
are pairwise distinct, and a successful `run_from` records the new run under a
fresh run_id that differs from every run_id already in the store — in
particular from the originating run_id of the given checkpoint. -/
theorem run_ids_distinct (st : WorkflowCheckpointer) (h : Reachable st) :
    (st.checkpoints.map Prod.fst).Nodup
    ∧ ∀ (ser : Ctx → Option String) (cp : Checkpoint) (st2 : WorkflowCheckpointer)
        (res : Ctx × Event), st.run_from ser cp = some (st2, res) →
        st2.checkpoints.map Prod.fst = st.checkpoints.map Prod.fst ++ [st.nextRunId]
        ∧ st.nextRunId ∉ st.checkpoints.map Prod.fst := by
  obtain ⟨hnd, hlt⟩ := runIdsOk_reachable st h
  refine ⟨hnd, ?_⟩
  intro ser cp st2 res heq
  simp only [WorkflowCheckpointer.run_from] at heq
  split at heq
  · injection heq with h1
    cases h1
    constructor
    · simp
    · intro hmem
      exact absurd (hlt _ hmem) (lt_irrefl _)
  · cases heq

/-- Witness for C5: after one example run, the stored run_ids are pairwise
distinct, and resuming from the stored checkpoint assigns a run_id not yet in
the store. -/
theorem run_ids_distinct_witness :
    (demoState1.checkpoints.map Prod.fst).Nodup
    ∧ demoState1.nextRunId ∉ demoState1.checkpoints.map Prod.fst := by
  have hreach : Reachable demoState1 :=
    ⟨jokeFlow, Relation.ReflTransGen.single
      (CkptrStep.run (WorkflowCheckpointer.init jokeFlow) Option.some startEvent)⟩
  have h := run_ids_distinct demoState1 hreach
  refine ⟨h.1, ?_⟩
  have hcond : sampleCkpt.last_completed_step ∈ demoState1.workflow.steps.map Step.name := by
    decide
  have hsome : (demoState1.run_from Option.some sampleCkpt).isSome = true := by
    simp only [WorkflowCheckpointer.run_from]
    rw [if_pos hcond]
    rfl
  obtain ⟨p, hp⟩ := Option.isSome_iff_exists.mp hsome
  exact (h.2 Option.some sampleCkpt p.1 p.2 (by rw [hp])).2

/-! ### C6: the store only grows and stored records are stable -/

theorem ckptrStep_extends (st st2 : WorkflowCheckpointer) (h : CkptrStep st st2) :
    ∃ t, st.checkpoints ++ t = st2.checkpoints := by
  cases h with
  | run ser ev => exact ⟨_, rfl⟩
  | run_from ser cp st2 res heq =>
    simp only [WorkflowCheckpointer.run_from] at heq
    split at heq
    · injection heq with h1
      cases h1
      exact ⟨_, rfl⟩
    · cases heq
  | enable s => exact ⟨[], by simp [WorkflowCheckpointer.enable_checkpoint]⟩
  | disable s => exact ⟨[], by simp [WorkflowCheckpointer.disable_checkpoint]⟩
  | set_workflow wf => exact ⟨[], by simp [WorkflowCheckpointer.set_workflow]⟩

theorem chain_extends (st st2 : WorkflowCheckpointer)
    (h : Relation.ReflTransGen CkptrStep st st2) :
    ∃ t, st.checkpoints ++ t = st2.checkpoints := by
  induction h with
  | refl => exact ⟨[], by simp⟩
  | tail h1 h2 ih =>
    obtain ⟨t1, ht1⟩ := ih
    obtain ⟨t2, ht2⟩ := ckptrStep_extends _ _ h2
    exact ⟨t1 ++ t2, by rw [← List.append_assoc, ht1, ht2]⟩

/-- C6: across every sequence of checkpointer operations, the store only grows
and existing records are stable: the later store extends the earlier one (its
first entries are exactly the earlier entries, run lists unchanged — so a
Checkpoint once stored is never mutated), and no stored entry is ever removed
— disabling a step never retracts already-stored checkpoints and nothing is
pruned automatically. -/
theorem store_only_grows (st st2 : WorkflowCheckpointer)
    (h : Relation.ReflTransGen CkptrStep st st2) :
    st2.checkpoints.take st.checkpoints.length = st.checkpoints
    ∧ ∀ p ∈ st.checkpoints, p ∈ st2.checkpoints := by
  obtain ⟨t, ht⟩ := chain_extends st st2 h
  constructor
  · rw [← ht]
    exact List.take_left _ _
  · intro p hp
    rw [← ht]
    exact List.mem_append_left _ hp

/-- Witness for C6: a second run extends the store of the first example state,
and the first run's stored entry survives unchanged. -/
theorem store_only_grows_witness :
    demoState2.checkpoints.take demoState1.checkpoints.length = demoState1.checkpoints
    ∧ (0, lastRunCheckpoints demoState1) ∈ demoState2.checkpoints := by
  have hchain : Relation.ReflTransGen CkptrStep demoState1 demoState2 :=
    Relation.ReflTransGen.single (CkptrStep.run demoState1 Option.some startEvent)
  have h := store_only_grows demoState1 demoState2 hchain
  refine ⟨h.1, h.2 _ ?_⟩
  decide

/-! ### C2: one checkpoint per enabled step completion -/

theorem lastRunCheckpoints_concat (st : WorkflowCheckpointer)
    (l : List (Nat × List Checkpoint)) (k : Nat) (c : List Checkpoint)
    (h : st.checkpoints = l ++ [(k, c)]) : lastRunCheckpoints st = c := by
  simp [lastRunCheckpoints, h, List.getLast?_concat]

/-- C2: after a run launched by the checkpointer completes, the stored
checkpoint list for its run_id has exactly one checkpoint per completion of an
enabled step, in the engine's completion order (its `last_completed_step`
sequence is the completion sequence restricted to enabled steps); with N
distinct enabled steps each completing once the run stores exactly N
checkpoints; and disabling one step beforehand reduces the stored count by
exactly that step's number of completions. -/
theorem run_checkpoint_counts (st : WorkflowCheckpointer) (ev : Event) :
    (lastRunCheckpoints ((st.run Option.some ev).1)).map Checkpoint.last_completed_step
        = (st.workflow.steps.map Step.name).filter (fun x => x ∈ st.enabled_checkpoints)
    ∧ ((st.workflow.steps.map Step.name).Nodup → st.enabled_checkpoints.Nodup →
        (∀ x ∈ st.enabled_checkpoints, x ∈ st.workflow.steps.map Step.name) →
        (lastRunCheckpoints ((st.run Option.some ev).1)).length
          = st.enabled_checkpoints.length)
    ∧ (∀ s, s ∈ st.enabled_checkpoints →
        (lastRunCheckpoints (((st.disable_checkpoint s).run Option.some ev).1)).length
          + (st.workflow.steps.map Step.name).count s
          = (lastRunCheckpoints ((st.run Option.some ev).1)).length) := by
  have hmain : ∀ (st' : WorkflowCheckpointer),
      (lastRunCheckpoints ((st'.run Option.some ev).1)).map Checkpoint.last_completed_step
        = (st'.workflow.steps.map Step.name).filter
            (fun x => x ∈ st'.enabled_checkpoints) := by
    intro st'
    rw [lastRunCheckpoints_run, mkCheckpoints_map_step, engineRun_names]
  have hlen : ∀ (st' : WorkflowCheckpointer),
      (lastRunCheckpoints ((st'.run Option.some ev).1)).length
        = ((st'.workflow.steps.map Step.name).filter
            (fun x => x ∈ st'.enabled_checkpoints)).length := by
    intro st'
    rw [← List.length_map (lastRunCheckpoints ((st'.run Option.some ev).1))
      Checkpoint.last_completed_step, hmain st']
  refine ⟨hmain st, ?_, ?_⟩
  · intro h1 h2 h3
    rw [hlen st]
    exact filter_mem_length_eq _ _ h1 h2 h3
  · intro s hs
    rw [hlen st, hlen (st.disable_checkpoint s)]
    exact filter_disable_count _ _ s hs

/-- Witness for C2: the example run with both steps enabled stores exactly two
checkpoints; disabling `critique_joke` (which completes once) beforehand
reduces the new run's stored count by one. -/
theorem run_checkpoint_counts_witness :
    (lastRunCheckpoints ((WorkflowCheckpointer.init jokeFlow).run Option.some startEvent).1).length
        = (WorkflowCheckpointer.init jokeFlow).enabled_checkpoints.length
    ∧ (lastRunCheckpoints
          ((((WorkflowCheckpointer.init jokeFlow).disable_checkpoint "critique_joke").run
            Option.some startEvent).1)).length
        + (((WorkflowCheckpointer.init jokeFlow).workflow.steps.map Step.name).count
            "critique_joke")
        = (lastRunCheckpoints
            ((WorkflowCheckpointer.init jokeFlow).run Option.some startEvent).1).length :=
  ⟨(run_checkpoint_counts (WorkflowCheckpointer.init jokeFlow) startEvent).2.1
      (by decide) (by decide) (by decide),
    (run_checkpoint_counts (WorkflowCheckpointer.init jokeFlow) startEvent).2.2
      "critique_joke" (by decide)⟩

/-! ### C1: run_from resumes immediately after the checkpointed step -/

/-- C1: `run_from(c)` restores the engine context from `c`'s snapshot and
presents `c.output_event` as the next input event, so the new run executes
exactly the steps after `c.last_completed_step` in engine order (every step up
to and including it is skipped): the new run's stored `last_completed_step`
sequence is the post-checkpoint step sequence restricted to enabled steps, its
checkpoints are stored under a fresh run_id, the first stored checkpoint (when
the immediately following step is enabled) is for that immediately following
step, and the number of stored checkpoints equals the number of enabled
post-checkpoint completions — in the two-step example workflow resumed from
the first step's checkpoint, exactly one, for the second step. -/
theorem run_from_skips_completed (st : WorkflowCheckpointer) (cp : Checkpoint)
    (pre post : List Step) (s : Step)
    (hsteps : st.workflow.steps = pre ++ s :: post)
    (hpre : s.name ∉ pre.map Step.name)
    (hname : cp.last_completed_step = s.name) :
    ((st.run_from Option.some cp).map
        (fun p => (lastRunCheckpoints p.1).map Checkpoint.last_completed_step))
      = some ((post.map Step.name).filter (fun x => x ∈ st.enabled_checkpoints))
    ∧ ((st.run_from Option.some cp).map (fun p => p.1.checkpoints.map Prod.fst))
      = some (st.checkpoints.map Prod.fst ++ [st.nextRunId])
    ∧ (∀ s2 post2, post = s2 :: post2 → s2.name ∈ st.enabled_checkpoints →
        ((st.run_from Option.some cp).map
          (fun p => ((lastRunCheckpoints p.1).map Checkpoint.last_completed_step).head?))
          = some (some s2.name))
    ∧ ((st.run_from Option.some cp).map (fun p => (lastRunCheckpoints p.1).length))
      = some (((post.map Step.name).filter (fun x => x ∈ st.enabled_checkpoints)).length) := by
  have hmem : cp.last_completed_step ∈ st.workflow.steps.map Step.name := by
    rw [hsteps, hname]
    simp
  have hafter : stepsAfter st.workflow.steps cp.last_completed_step = post := by
    rw [hsteps, hname]
    exact stepsAfter_eq pre post s hpre
  have hcps : (mkCheckpoints st.enabled_checkpoints Option.some st.nextCkptId
        (engineRun (stepsAfter st.workflow.steps cp.last_completed_step)
          cp.ctx_state cp.output_event).1).map Checkpoint.last_completed_step
      = (post.map Step.name).filter (fun x => x ∈ st.enabled_checkpoints) := by
    rw [mkCheckpoints_map_step, engineRun_names, hafter]
  refine ⟨?_, ?_, ?_, ?_⟩
  · simp only [WorkflowCheckpointer.run_from]
    rw [if_pos hmem]
    simp only [Option.map_some', Option.some.injEq]
    rw [lastRunCheckpoints_concat _ st.checkpoints st.nextRunId _ rfl]
    exact hcps
  · simp only [WorkflowCheckpointer.run_from]
    rw [if_pos hmem]
    simp
  · intro s2 post2 hpost hmem2
    subst hpost
    simp only [WorkflowCheckpointer.run_from]
    rw [if_pos hmem]
    simp only [Option.map_some', Option.some.injEq]
    rw [lastRunCheckpoints_concat _ st.checkpoints st.nextRunId _ rfl, hcps]
    simp [List.filter_cons, hmem2]
  · simp only [WorkflowCheckpointer.run_from]
    rw [if_pos hmem]
    simp only [Option.map_some', Option.some.injEq]
    rw [lastRunCheckpoints_concat _ st.checkpoints st.nextRunId _ rfl, ← hcps,
      List.length_map]

/-- Witness for C1: resuming the example checkpointer from the
`generate_joke` checkpoint executes only the steps after it — one enabled
completion, for `critique_joke`. -/
theorem run_from_skips_completed_witness :
    (((WorkflowCheckpointer.init jokeFlow).run_from Option.some sampleCkpt).map
        (fun p => (lastRunCheckpoints p.1).map Checkpoint.last_completed_step))
      = some ["critique_joke"]
    ∧ (((WorkflowCheckpointer.init jokeFlow).run_from Option.some sampleCkpt).map
        (fun p => (lastRunCheckpoints p.1).length)) = some 1
    ∧ (((WorkflowCheckpointer.init jokeFlow).run_from Option.some sampleCkpt).map
        (fun p => ((lastRunCheckpoints p.1).map Checkpoint.last_completed_step).head?))
      = some (some "critique_joke") := by
  have h := run_from_skips_completed (WorkflowCheckpointer.init jokeFlow) sampleCkpt
    [] [critique_joke, doneStep] generate_joke rfl (by simp) rfl
  refine ⟨?_, ?_, ?_⟩
  · rw [h.1]
    decide
  · rw [h.2.2.2]
    decide
  · rw [h.2.2.1 critique_joke [doneStep] rfl (by decide)]
    rfl

/-! ### C10: run_from works against a freshly attached workflow instance -/

/-- C10: after reassigning the checkpointer's `workflow` attribute to a fresh
instance of the same workflow class (same step list, distinct instance
identity), `run_from(c)` for a stored checkpoint still succeeds: it resumes
against the newly attached instance, produces exactly the store contents and
result it would have produced before the reassignment, and records the new
run's checkpoints under the fresh run_id — nothing depends on the instance
that originally produced `c`. -/
theorem run_from_fresh_instance (st : WorkflowCheckpointer) (wf2 : Workflow)
    (cp : Checkpoint) (ser : Ctx → Option String)
    (hsteps : wf2.steps = st.workflow.steps)
    (hmem : cp.last_completed_step ∈ st.workflow.steps.map Step.name) :
    ((st.set_workflow wf2).run_from ser cp).isSome = true
    ∧ ((st.set_workflow wf2).run_from ser cp).map (fun p => p.1.checkpoints)
        = (st.run_from ser cp).map (fun p => p.1.checkpoints)
    ∧ ((st.set_workflow wf2).run_from ser cp).map Prod.snd
        = (st.run_from ser cp).map Prod.snd
    ∧ ((st.set_workflow wf2).run_from ser cp).map (fun p => p.1.checkpoints.map Prod.fst)
        = some (st.checkpoints.map Prod.fst ++ [st.nextRunId]) := by
  have hwf : (st.set_workflow wf2).workflow.steps = st.workflow.steps := hsteps
  have hrf : (st.set_workflow wf2).run_from ser cp
      = some ({ st with
            workflow := wf2
            checkpoints := st.checkpoints ++ [(st.nextRunId,
              mkCheckpoints st.enabled_checkpoints ser st.nextCkptId
                (engineRun (stepsAfter st.workflow.steps cp.last_completed_step)
                  cp.ctx_state cp.output_event).1)]
            nextRunId := st.nextRunId + 1
            nextCkptId := st.nextCkptId + (mkCheckpoints st.enabled_checkpoints ser
              st.nextCkptId (engineRun (stepsAfter st.workflow.steps cp.last_completed_step)
                cp.ctx_state cp.output_event).1).length },
          (engineRun (stepsAfter st.workflow.steps cp.last_completed_step)
            cp.ctx_state cp.output_event).2) := by
    simp only [WorkflowCheckpointer.run_from, WorkflowCheckpointer.set_workflow, hsteps]
    rw [if_pos hmem]
  have hrf1 : st.run_from ser cp
      = some ({ st with
            checkpoints := st.checkpoints ++ [(st.nextRunId,
              mkCheckpoints st.enabled_checkpoints ser st.nextCkptId
                (engineRun (stepsAfter st.workflow.steps cp.last_completed_step)
                  cp.ctx_state cp.output_event).1)]
            nextRunId := st.nextRunId + 1
            nextCkptId := st.nextCkptId + (mkCheckpoints st.enabled_checkpoints ser
              st.nextCkptId (engineRun (stepsAfter st.workflow.steps cp.last_completed_step)
                cp.ctx_state cp.output_event).1).length },
          (engineRun (stepsAfter st.workflow.steps cp.last_completed_step)
            cp.ctx_state cp.output_event).2) := by
    simp only [WorkflowCheckpointer.run_from]
    rw [if_pos hmem]
  refine ⟨?_, ?_, ?_, ?_⟩
  · rw [hrf]
    rfl
  · rw [hrf, hrf1]
    rfl
  · rw [hrf, hrf1]
    rfl
  · rw [hrf]
    simp

/-- Witness for C10: resuming from the example checkpoint after attaching a
fresh instance of the same workflow class still succeeds. -/
theorem run_from_fresh_instance_witness :
    ((demoState1.set_workflow jokeFlow2).run_from Option.some sampleCkpt).isSome = true
    ∧ ((demoState1.set_workflow jokeFlow2).run_from Option.some sampleCkpt).map
        (fun p => p.1.checkpoints.map Prod.fst)
      = some (demoState1.checkpoints.map Prod.fst ++ [demoState1.nextRunId]) := by
  have h := run_from_fresh_instance demoState1 jokeFlow2 sampleCkpt Option.some rfl (by decide)
  exact ⟨h.1, h.2.2.2⟩

/-- Witness for C3: filtering the populated example store by an event type tag
that no stored checkpoint carries yields the empty result. -/
theorem filter_checkpoints_and_semantics_witness :
    demoState1.filter_checkpoints (some "generate_joke") (some "NoSuchEvent") none = [] :=
  (filter_checkpoints_and_semantics demoState1 (some "generate_joke") none none
    "NoSuchEvent" sampleCkpt).2 (by decide)
